import Mathlib

/-!
# Verification of the fragment-renderer runtime core

Shallow embedding of the runtime core of `@skibidoo/container-runtime`
(`src/runtime.ts`, `src/internal/context.ts`, `src/internal/resolve-component.ts`)
together with proofs about its registry, resolution cache, context merger,
service locator and render orchestrator.

Modelling conventions:
* JavaScript values that the code inspects dynamically (truthiness checks,
  `typeof` checks) are modelled by the inductive `JSVal`.  Function values
  (component loaders, service factories) are represented by a `fn` tag; the
  value a loader/factory produces is supplied by an environment
  `Nat → JSVal` passed explicitly to the operations that invoke them.
* JavaScript `Map` objects and plain objects are both insertion-ordered
  key/value sequences; they are modelled as association lists together with
  `mapGet` / `mapSet` / `mapDelete` mirroring `Map.get` / `Map.set` /
  `Map.delete` and `Object.assign`.  `Map.set` and property assignment keep
  the original insertion position when overwriting, which `mapSet` mirrors.
* `async` functions are modelled as pure functions that additionally return
  the number of times they invoked their loader/factory; cooperative
  interleaving of two concurrent calls is modelled by an explicit small-step
  scheduler whose suspension points are exactly the `await` expressions of
  the source.
-/

/-- A dynamically typed JavaScript value, as far as the runtime inspects it.
Functions and opaque objects (component handles, service instances, modules)
are represented by numeric tags. -/
inductive JSVal where
  | jsUndefined
  | nullv
  | bool (b : Bool)
  | num (n : Int)
  | str (s : String)
  | fn (tag : Nat)
  | obj (tag : Nat)
deriving DecidableEq, Repr

/-- JavaScript truthiness (`if (x)`), restricted to the values of `JSVal`. -/
def truthy : JSVal → Bool
  | .jsUndefined => false
  | .nullv => false
  | .bool b => b
  | .num n => n != 0
  | .str s => s != ""
  | .fn _ => true
  | .obj _ => true

/-- `typeof x === "string"`. -/
def jsIsString : JSVal → Bool
  | .str _ => true
  | _ => false

/-- `typeof x === "function"`. -/
def jsIsFunction : JSVal → Bool
  | .fn _ => true
  | _ => false

/-- The underlying string of a string value (only used after `jsIsString`). -/
def jsStringValue : JSVal → String
  | .str s => s
  | _ => ""

/-- `Map.get` / property lookup on an insertion-ordered association list. -/
def mapGet [DecidableEq κ] : List (κ × α) → κ → Option α
  | [], _ => none
  | kv :: rest, k => if kv.1 = k then some kv.2 else mapGet rest k

/-- `Map.set` / property assignment: overwrite in place, else append. -/
def mapSet [DecidableEq κ] : List (κ × α) → κ → α → List (κ × α)
  | [], k, v => [(k, v)]
  | kv :: rest, k, v => if kv.1 = k then (k, v) :: rest else kv :: mapSet rest k v

/-- `Map.delete`: remove the binding for a key. -/
def mapDelete [DecidableEq κ] : List (κ × α) → κ → List (κ × α)
  | [], _ => []
  | kv :: rest, k => if kv.1 = k then mapDelete rest k else kv :: mapDelete rest k

/-- The value of the LAST binding of a key in a source sequence: this is the
value that survives when every binding is written in order. -/
def lookupLast [DecidableEq κ] (m : List (κ × α)) (k : κ) : Option α :=
  m.foldl (fun acc kv => if kv.1 = k then some kv.2 else acc) none

/-- First-some choice on options (explicit, to keep proofs self-contained). -/
def oElse : Option α → Option α → Option α
  | some v, _ => some v
  | none, b => b

/-- Write every binding of `src`, in order, into `target` (`Object.assign`). -/
def mapSetAll [DecidableEq κ] (target src : List (κ × α)) : List (κ × α) :=
  src.foldl (fun acc kv => mapSet acc kv.1 kv.2) target

/-! ## Context merger (`src/internal/context.ts`) -/

/-- A `RenderContext`: a plain JS object, i.e. an insertion-ordered map from
string keys to values.  Keys of an actual JS object are unique (`ctxWF`). -/
abbrev RCtx := List (String × JSVal)

/-- A well-formed JS object has no duplicate keys. -/
abbrev ctxWF (c : RCtx) : Prop := (c.map Prod.fst).Nodup

/-- `Object.assign(target, src)`. -/
def objAssign (target src : RCtx) : RCtx := mapSetAll target src

/-- `mergeContexts(...contexts)`: start from `{}`, `Object.assign` each
fragment that is truthy (an absent/`undefined` fragment is skipped). -/
def mergeContexts (ctxs : List (Option RCtx)) : RCtx :=
  ctxs.foldl
    (fun result ctx =>
      match ctx with
      | some c => objAssign result c
      | none => result)
    []

/-- `createDefaultContext()`: `{ locale: undefined, channel: "web" }`. -/
def createDefaultContext : RCtx :=
  [("locale", .jsUndefined), ("channel", .str "web")]

/-- JS property access: a missing key reads as `undefined`. -/
def getProp (c : RCtx) (k : String) : JSVal := (mapGet c k).getD .jsUndefined

/-! ## Registry and error taxonomy (`src/runtime.ts`, `src/types.ts`) -/

/-- The errors the runtime core throws.  The source throws plain `Error`s;
the constructors here follow the spec's taxonomy and carry the offending
id/name exactly where the source message interpolates it. -/
inductive Err where
  | invalidArgument (msg : String)
  | notFoundComponent (id : String)
  | notFoundService (name : String)
  | resolutionError (id : JSVal)
  | typeError (msg : String)
deriving DecidableEq, Repr

/-- A `RegistryEntry` as the code manipulates it.  `id` and `loader` are kept
as dynamic values because `registerComponents` checks them at run time;
`styles` is read by `renderToString`.  The open `meta` payload is carried
through untouched by the code and is not modelled. -/
structure EntryM where
  id : JSVal
  loader : JSVal
  styles : Option String := none
deriving DecidableEq, Repr

/-- `entry.id` passes validation (`!entry.id || typeof entry.id !== "string"`
is false) and `entry.loader` passes (`typeof entry.loader === "function"`). -/
def entryWellFormed (e : EntryM) : Bool :=
  truthy e.id && jsIsString e.id && jsIsFunction e.loader

/-- `registerComponents(entries)`: validate and insert each entry in order,
stopping (by throwing) at the first malformed entry.  Returns the registry
as mutated so far together with the error, if any — mirroring that the
source mutates `this.registry` inside the validation loop. -/
def registerComponents (reg : List (String × EntryM)) :
    List EntryM → List (String × EntryM) × Option Err
  | [] => (reg, none)
  | e :: rest =>
    if !truthy e.id || !jsIsString e.id then
      (reg, some (.invalidArgument "Each entry must have a non-empty string id"))
    else if !jsIsFunction e.loader then
      (reg, some (.invalidArgument "Component must have a loader function"))
    else
      registerComponents (mapSet reg (jsStringValue e.id) e) rest

/-! ## Resolution cache (`src/internal/resolve-component.ts`)

`componentCache` is declared at module level in the source — one single map
per process, NOT a field of the runtime instance.  The embedding therefore
threads the cache as a standalone value, separate from any runtime state, so
that two runtime instances of one process share it, exactly as in the source.
-/

/-- The module-level `componentCache`: component id ↦ resolved component. -/
abbrev CCache := List (JSVal × JSVal)

/-- `resolveComponent(entry)`.  `env` gives the value of `module.default`
for each loader tag (a falsy/missing default export is any non-truthy
value).  Returns the result, the updated cache, and how many times the
loader was invoked by this call. -/
def resolveComponent (env : Nat → JSVal) (cache : CCache) (entry : EntryM) :
    Except Err JSVal × CCache × Nat :=
  let cached := (mapGet cache entry.id).getD .jsUndefined
  if truthy cached then
    (.ok cached, cache, 0)
  else
    match entry.loader with
    | .fn t =>
      let component := env t
      if truthy component then
        (.ok component, mapSet cache entry.id component, 1)
      else
        (.error (.resolutionError entry.id), cache, 1)
    | _ => (.error (.typeError "entry.loader is not a function"), cache, 0)

/-! ## Service locator and runtime state (`src/runtime.ts`) -/

/-- A `ServiceDefinition` as stored: the constructor stores whatever the
config supplies, so both fields stay dynamic values. -/
structure ServiceDefM where
  name : JSVal
  factory : JSVal
deriving DecidableEq, Repr

/-- The per-instance state of `AstroRuntimeImpl`: base context, registry,
service definitions and memoized service instances.  (The resolution cache
is deliberately NOT part of this state — see `CCache` above.) -/
structure RuntimeState where
  baseContext : RCtx
  registry : List (String × EntryM)
  services : List (JSVal × ServiceDefM)
  serviceInstances : List (String × JSVal)
deriving DecidableEq, Repr

/-- `RuntimeConfig`. -/
structure ConfigM where
  baseContext : Option RCtx := none
  components : Option (List EntryM) := none
  services : Option (List ServiceDefM) := none

/-- The `AstroRuntimeImpl` constructor: default the base context, register
initial components through `registerComponents` (whose errors propagate),
then copy the config's service definitions into the service map verbatim —
no validation, later duplicates overwriting earlier ones. -/
def mkRuntime (config : ConfigM) : Except Err RuntimeState :=
  let base := config.baseContext.getD createDefaultContext
  let regResult :=
    match config.components with
    | some entries => registerComponents [] entries
    | none => ([], none)
  match regResult.2 with
  | some e => .error e
  | none =>
    .ok
      { baseContext := base
        registry := regResult.1
        services :=
          (config.services.getD []).foldl (fun m s => mapSet m s.name s) []
        serviceInstances := [] }

/-- `registerService(name, factory)`: validate, replace the definition and
evict any memoized instance for that name. -/
def registerService (st : RuntimeState) (name factory : JSVal) :
    Except Err RuntimeState :=
  if !truthy name || !jsIsString name then
    .error (.invalidArgument "Service name must be a non-empty string")
  else if !jsIsFunction factory then
    .error (.invalidArgument "Service factory must be a function")
  else
    .ok
      { st with
        services := mapSet st.services name ⟨name, factory⟩
        serviceInstances := mapDelete st.serviceInstances (jsStringValue name) }

/-- `getService(name)`.  `factEnv` gives the instance each factory tag
produces (factories are modelled as pure; the runtime handle they receive is
not needed by any claim).  Returns the result, the updated state, and how
many times a factory was invoked by this call. -/
def getService (factEnv : Nat → JSVal) (st : RuntimeState) (name : String) :
    Except Err JSVal × RuntimeState × Nat :=
  if (mapGet st.serviceInstances name).isSome then
    (.ok ((mapGet st.serviceInstances name).getD .jsUndefined), st, 0)
  else
    match mapGet st.services (.str name) with
    | none => (.error (.notFoundService name), st, 0)
    | some sd =>
      match sd.factory with
      | .fn t =>
        let inst := factEnv t
        (.ok inst,
          { st with serviceInstances := mapSet st.serviceInstances name inst },
          1)
      | _ => (.error (.typeError "factory is not a function"), st, 0)

/-! ## Render orchestrator (`src/runtime.ts`) -/

/-- The external rendering engine (`container.render`): component handle,
props, slots, merged context ↦ markup.  Opaque collaborator, passed in as a
parameter. -/
abbrev EngineFn := JSVal → Option JSVal → Option JSVal → RCtx → String

/-- Loader and engine invocations performed by one `renderToString` call. -/
structure RenderTrace where
  loaderCalls : Nat
  engineCalls : Nat
deriving DecidableEq, Repr

/-- `renderComponent(component, props?, context?)`: merge base and override
context, delegate to the engine (no slots are passed). -/
def renderComponent (engine : EngineFn) (st : RuntimeState) (component : JSVal)
    (props : Option JSVal) (context : Option RCtx) : String :=
  engine component props none (mergeContexts [some st.baseContext, context])

/-- `RenderByIdOptions`. -/
structure RenderByIdOptionsM where
  componentId : String
  props : Option JSVal := none
  context : Option RCtx := none
  slots : Option JSVal := none

/-- `renderToString(options)`: registry lookup (throws when absent), resolve
through the shared cache, merge context, render, and append a style block in
front of the markup when the entry carries `styles`.  Returns the result,
the updated shared cache, and the invocation trace. -/
def renderToString (env : Nat → JSVal) (engine : EngineFn) (cache : CCache)
    (st : RuntimeState) (options : RenderByIdOptionsM) :
    Except Err String × CCache × RenderTrace :=
  match mapGet st.registry options.componentId with
  | none => (.error (.notFoundComponent options.componentId), cache, ⟨0, 0⟩)
  | some entry =>
    match resolveComponent env cache entry with
    | (.error e, cache1, n) => (.error e, cache1, ⟨n, 0⟩)
    | (.ok component, cache1, n) =>
      let mergedContext := mergeContexts [some st.baseContext, options.context]
      let html := engine component options.props options.slots mergedContext
      let html1 :=
        match entry.styles with
        | some s => "<style>" ++ s ++ "</style>\n" ++ html
        | none => html
      (.ok html1, cache1, ⟨n, 1⟩)

/-! ### Response wrapping

`Headers` is case-insensitive; keys are stored lowercased, which is
observationally equivalent for `get` / `has` / `set` / `append`. -/

/-- `headers.get(k)` (case-insensitive). -/
def headerGet (h : List (String × String)) (k : String) : Option String :=
  mapGet h k.toLower

/-- `headers.has(k)`. -/
def headersHas (h : List (String × String)) (k : String) : Bool :=
  (headerGet h k).isSome

/-- `headers.set(k, v)`: replace or add. -/
def headersSet (h : List (String × String)) (k v : String) :
    List (String × String) :=
  mapSet h k.toLower v

/-- `headers.append(k, v)`: combine with an existing value, else add. -/
def headerAppend (h : List (String × String)) (k v : String) :
    List (String × String) :=
  match mapGet h k.toLower with
  | some old => mapSet h k.toLower (old ++ ", " ++ v)
  | none => h ++ [(k.toLower, v)]

/-- `new Headers(init)`: append every pair of the init sequence in order
(an absent init yields the empty header list). -/
def newHeaders (init : Option (List (String × String))) :
    List (String × String) :=
  (init.getD []).foldl (fun h kv => headerAppend h kv.1 kv.2) []

/-- `ResponseOptions`. -/
structure ResponseOptionsM where
  status : Option Nat := none
  headers : Option (List (String × String)) := none
  contentType : Option String := none

/-- A fetch `Response` as far as the runtime constructs one. -/
structure ResponseM where
  body : String
  status : Nat
  headers : List (String × String)
deriving DecidableEq, Repr

/-- `renderToResponse(component, props?, options?)`: render (with no
override context), then wrap with default status 200 and a default
`Content-Type` that is only set when the caller-supplied headers do not
already carry one. -/
def renderToResponse (engine : EngineFn) (st : RuntimeState) (component : JSVal)
    (props : Option JSVal) (options : Option ResponseOptionsM) : ResponseM :=
  let html := renderComponent engine st component props none
  let headers0 := newHeaders (options.bind (fun o => o.headers))
  let headers1 :=
    if headersHas headers0 "Content-Type" then headers0
    else
      headersSet headers0 "Content-Type"
        ((options.bind (fun o => o.contentType)).getD "text/html; charset=utf-8")
  { body := html
    status := (options.bind (fun o => o.status)).getD 200
    headers := headers1 }

/-! ## Cooperative interleaving of two concurrent calls

The source suspends exactly once per build: at `await entry.loader()` in
`resolveComponent` and at `await definition.factory(this)` in `getService`.
Each call is therefore two atomic segments — everything before the `await`
(the cache check and the loader/factory invocation) and everything after it
(the result check and the cache write).  A task is `ready` before its first
segment, `waiting` between the segments, and `finished` afterwards; a
schedule is the list of task choices made by the scheduler. -/

instance [DecidableEq ε] [DecidableEq α] : DecidableEq (Except ε α) := fun x y =>
  match x, y with
  | .error a, .error b =>
    if h : a = b then .isTrue (by rw [h]) else .isFalse (by intro hh; cases hh; exact h rfl)
  | .ok a, .ok b =>
    if h : a = b then .isTrue (by rw [h]) else .isFalse (by intro hh; cases hh; exact h rfl)
  | .error _, .ok _ => .isFalse (by intro hh; cases hh)
  | .ok _, .error _ => .isFalse (by intro hh; cases hh)

/-- The progress of one `resolveComponent` call. -/
inductive RTask where
  | ready
  | waiting (t : Nat)
  | finished (r : Except Err JSVal)
deriving DecidableEq, Repr

/-- Shared world of two concurrent `resolveComponent` calls for the same
entry: the shared cache, the total number of loader invocations so far, and
the two tasks. -/
structure ResolveWorld where
  cache : CCache
  invocations : Nat
  taskA : RTask
  taskB : RTask
deriving DecidableEq, Repr

/-- One atomic segment of `resolveComponent`. -/
def stepRTask (env : Nat → JSVal) (entry : EntryM) (cache : CCache)
    (inv : Nat) : RTask → RTask × CCache × Nat
  | .ready =>
    let cached := (mapGet cache entry.id).getD .jsUndefined
    if truthy cached then (.finished (.ok cached), cache, inv)
    else
      match entry.loader with
      | .fn t => (.waiting t, cache, inv + 1)
      | _ =>
        (.finished (.error (.typeError "entry.loader is not a function")),
          cache, inv)
  | .waiting t =>
    let component := env t
    if truthy component then
      (.finished (.ok component), mapSet cache entry.id component, inv)
    else
      (.finished (.error (.resolutionError entry.id)), cache, inv)
  | .finished r => (.finished r, cache, inv)

/-- Run the segment of the scheduled task (`false` = A, `true` = B). -/
def stepResolve (env : Nat → JSVal) (entry : EntryM) (w : ResolveWorld)
    (pick : Bool) : ResolveWorld :=
  if pick then
    let s := stepRTask env entry w.cache w.invocations w.taskB
    { w with taskB := s.1, cache := s.2.1, invocations := s.2.2 }
  else
    let s := stepRTask env entry w.cache w.invocations w.taskA
    { w with taskA := s.1, cache := s.2.1, invocations := s.2.2 }

/-- Run a whole schedule. -/
def runResolve (env : Nat → JSVal) (entry : EntryM) (sched : List Bool)
    (w : ResolveWorld) : ResolveWorld :=
  sched.foldl (stepResolve env entry) w

/-- The progress of one `getService` call. -/
inductive STask where
  | ready
  | waiting (t : Nat)
  | finished (r : Except Err JSVal)
deriving DecidableEq, Repr

/-- Shared world of two concurrent `getService` calls for the same name. -/
structure ServiceWorld where
  st : RuntimeState
  invocations : Nat
  taskA : STask
  taskB : STask
deriving DecidableEq, Repr

/-- One atomic segment of `getService`. -/
def stepSTask (factEnv : Nat → JSVal) (name : String) (st : RuntimeState)
    (inv : Nat) : STask → STask × RuntimeState × Nat
  | .ready =>
    if (mapGet st.serviceInstances name).isSome then
      (.finished (.ok ((mapGet st.serviceInstances name).getD .jsUndefined)), st, inv)
    else
      match mapGet st.services (.str name) with
      | none => (.finished (.error (.notFoundService name)), st, inv)
      | some sd =>
        match sd.factory with
        | .fn t => (.waiting t, st, inv + 1)
        | _ =>
          (.finished (.error (.typeError "factory is not a function")), st, inv)
  | .waiting t =>
    let inst := factEnv t
    (.finished (.ok inst),
      { st with serviceInstances := mapSet st.serviceInstances name inst }, inv)
  | .finished r => (.finished r, st, inv)

/-- Run the segment of the scheduled task (`false` = A, `true` = B). -/
def stepService (factEnv : Nat → JSVal) (name : String) (w : ServiceWorld)
    (pick : Bool) : ServiceWorld :=
  if pick then
    let s := stepSTask factEnv name w.st w.invocations w.taskB
    { w with taskB := s.1, st := s.2.1, invocations := s.2.2 }
  else
    let s := stepSTask factEnv name w.st w.invocations w.taskA
    { w with taskA := s.1, st := s.2.1, invocations := s.2.2 }

/-- Run a whole schedule. -/
def runService (factEnv : Nat → JSVal) (name : String) (sched : List Bool)
    (w : ServiceWorld) : ServiceWorld :=
  sched.foldl (stepService factEnv name) w

/-! ## Concrete scenarios used as inputs to specific theorems -/

/-- Loader environment where loader 0 and loader 1 produce distinct
components (`100` and `200`). -/
def envDistinct : Nat → JSVal := fun t => if t = 0 then .num 100 else .num 200

/-- Runtime A's registration of id `"hero"`. -/
def entryHeroA : EntryM := { id := .str "hero", loader := .fn 0 }

/-- Runtime B's registration of the same id `"hero"` with another loader. -/
def entryHeroB : EntryM := { id := .str "hero", loader := .fn 1 }

/-- Loader environment where every loader yields the component `7`. -/
def envSeven : Nat → JSVal := fun _ => .num 7

/-- Factory environment where every factory builds the instance `5`. -/
def factFive : Nat → JSVal := fun _ => .num 5

/-- A runtime state with the single service `"svc"` (factory 0) registered
and nothing memoized. -/
def stSvc : RuntimeState :=
  { baseContext := createDefaultContext
    registry := []
    services := [(.str "svc", { name := .str "svc", factory := .fn 0 })]
    serviceInstances := [] }

/-- A well-formed registry entry (id `"a"`, loader 0). -/
def goodEntryA : EntryM := { id := .str "a", loader := .fn 0 }

/-- A malformed registry entry: its id is the empty string. -/
def badEntryEmptyId : EntryM := { id := .str "", loader := .fn 1 }

/-- An engine that renders everything to the empty string. -/
def engineBlank : EngineFn := fun _ _ _ _ => ""

/-- The runtime state produced by a zero-config construction. -/
def stZeroConfig : RuntimeState :=
  { baseContext := createDefaultContext
    registry := []
    services := []
    serviceInstances := [] }

/-! # Lemmas about the map primitives -/

theorem mapGet_mapSet [DecidableEq κ] (m : List (κ × α)) (k j : κ) (v : α) :
    mapGet (mapSet m k v) j = if k = j then some v else mapGet m j := by
  induction m with
  | nil =>
    simp only [mapSet, mapGet]
  | cons kv rest ih =>
    by_cases h : kv.1 = k
    · simp only [mapSet, h, if_pos rfl, mapGet]
      by_cases hj : k = j
      · simp [hj]
      · simp [hj, h]
    · simp only [mapSet, h, if_neg h, mapGet, ih]
      by_cases hj : kv.1 = j
      · have : ¬ k = j := fun hk => h (hj.trans hk.symm)
        simp [hj, this]
      · simp [hj]

theorem mapGet_mapSet_self [DecidableEq κ] (m : List (κ × α)) (k : κ) (v : α) :
    mapGet (mapSet m k v) k = some v := by
  simp [mapGet_mapSet]

theorem mapGet_mapDelete_self [DecidableEq κ] (m : List (κ × α)) (k : κ) :
    mapGet (mapDelete m k) k = none := by
  induction m with
  | nil => simp [mapDelete, mapGet]
  | cons kv rest ih =>
    by_cases h : kv.1 = k
    · simp [mapDelete, h, ih]
    · simp [mapDelete, h, mapGet, ih]

theorem lookupLast_foldl [DecidableEq κ] (m : List (κ × α)) (k : κ)
    (acc : Option α) :
    m.foldl (fun a p => if p.1 = k then some p.2 else a) acc
      = oElse (lookupLast m k) acc := by
  induction m generalizing acc with
  | nil => simp [lookupLast, oElse]
  | cons kv rest ih =>
    have h1 : (kv :: rest).foldl (fun a p => if p.1 = k then some p.2 else a) acc
        = oElse (lookupLast rest k) (if kv.1 = k then some kv.2 else acc) :=
      ih (if kv.1 = k then some kv.2 else acc)
    have hcons : lookupLast (kv :: rest) k
        = oElse (lookupLast rest k) (if kv.1 = k then some kv.2 else none) :=
      ih (if kv.1 = k then some kv.2 else none)
    rw [h1, hcons]
    cases lookupLast rest k with
    | some v => simp [oElse]
    | none => by_cases h : kv.1 = k <;> simp [h, oElse]

theorem lookupLast_cons [DecidableEq κ] (kv : κ × α) (m : List (κ × α))
    (k : κ) :
    lookupLast (kv :: m) k
      = oElse (lookupLast m k) (if kv.1 = k then some kv.2 else none) :=
  lookupLast_foldl m k (if kv.1 = k then some kv.2 else none)

theorem mapGet_mapSetAll [DecidableEq κ] (t s : List (κ × α)) (k : κ) :
    mapGet (mapSetAll t s) k = oElse (lookupLast s k) (mapGet t k) := by
  induction s generalizing t with
  | nil => simp [mapSetAll, lookupLast, oElse]
  | cons kv rest ih =>
    have h1 : mapSetAll t (kv :: rest) = mapSetAll (mapSet t kv.1 kv.2) rest := rfl
    rw [h1, ih, lookupLast_cons, mapGet_mapSet]
    cases lookupLast rest k with
    | some v => simp [oElse]
    | none => by_cases h : kv.1 = k <;> simp [h, oElse]

theorem keys_mapSet [DecidableEq κ] (m : List (κ × α)) (k : κ) (v : α) :
    (mapSet m k v).map Prod.fst
      = if k ∈ m.map Prod.fst then m.map Prod.fst
        else m.map Prod.fst ++ [k] := by
  induction m with
  | nil => simp [mapSet]
  | cons kv rest ih =>
    by_cases h : kv.1 = k
    · simp [mapSet, h]
    · have h2 : ¬ k = kv.1 := fun he => h he.symm
      by_cases hm : k ∈ rest.map Prod.fst
      · simp [mapSet, h, ih, hm, h2]
      · simp [mapSet, h, ih, hm, h2]

theorem nodupKeys_mapSet [DecidableEq κ] (m : List (κ × α)) (k : κ) (v : α)
    (h : (m.map Prod.fst).Nodup) : ((mapSet m k v).map Prod.fst).Nodup := by
  rw [keys_mapSet]
  by_cases hm : k ∈ m.map Prod.fst
  · simpa [hm]
  · simp only [hm, if_neg, ite_false]
    rw [List.nodup_append]
    refine ⟨h, List.nodup_singleton k, ?_⟩
    intro a ha hb
    rw [List.mem_singleton] at hb
    exact hm (hb ▸ ha)

theorem nodupKeys_mapSetAll [DecidableEq κ] (t s : List (κ × α))
    (h : (t.map Prod.fst).Nodup) : ((mapSetAll t s).map Prod.fst).Nodup := by
  induction s generalizing t with
  | nil => exact h
  | cons kv rest ih => exact ih (mapSet t kv.1 kv.2) (nodupKeys_mapSet t kv.1 kv.2 h)

theorem lookupLast_eq_none_of_not_mem [DecidableEq κ] (m : List (κ × α))
    (k : κ) (h : k ∉ m.map Prod.fst) : lookupLast m k = none := by
  induction m with
  | nil => rfl
  | cons kv rest ih =>
    rw [lookupLast_cons]
    have h1 : ¬ kv.1 = k := fun he => h (by simp [he])
    have h2 : k ∉ rest.map Prod.fst := fun hm => h (by simp [hm])
    simp [ih h2, h1, oElse]

theorem lookupLast_eq_mapGet [DecidableEq κ] (m : List (κ × α)) (k : κ)
    (h : (m.map Prod.fst).Nodup) : lookupLast m k = mapGet m k := by
  induction m with
  | nil => rfl
  | cons kv rest ih =>
    rw [lookupLast_cons]
    have hh := List.nodup_cons.mp h
    by_cases hk : kv.1 = k
    · have hnone : lookupLast rest k = none :=
        lookupLast_eq_none_of_not_mem rest k (hk ▸ hh.1)
      simp [mapGet, hk, hnone, oElse]
    · rw [ih hh.2]
      simp only [mapGet, if_neg hk]
      cases mapGet rest k <;> simp [oElse]

/-! # Lemmas about the context merger -/

theorem mapGet_objAssign (t s : RCtx) (k : String) :
    mapGet (objAssign t s) k = oElse (lookupLast s k) (mapGet t k) :=
  mapGet_mapSetAll t s k

theorem mergeContexts_append_some (l : List (Option RCtx)) (b : RCtx) :
    mergeContexts (l ++ [some b]) = objAssign (mergeContexts l) b := by
  simp [mergeContexts, List.foldl_append]

theorem mergeContexts_skip_none (l1 l2 : List (Option RCtx)) :
    mergeContexts (l1 ++ none :: l2) = mergeContexts (l1 ++ l2) := by
  simp [mergeContexts, List.foldl_append]

theorem mapGet_mergeContexts_none (l : List (Option RCtx)) (k : String)
    (h : ∀ c : RCtx, some c ∈ l → lookupLast c k = none) :
    mapGet (mergeContexts l) k = none := by
  have main : ∀ (l : List (Option RCtx)) (acc : RCtx),
      (∀ c : RCtx, some c ∈ l → lookupLast c k = none) →
      mapGet acc k = none →
      mapGet (l.foldl (fun result ctx =>
        match ctx with
        | some c => objAssign result c
        | none => result) acc) k = none := by
    intro l
    induction l with
    | nil => intro acc _ hacc; exact hacc
    | cons o rest ih =>
      intro acc hl hacc
      cases o with
      | none => exact ih acc (fun c hc => hl c (List.mem_cons_of_mem _ hc)) hacc
      | some c =>
        have hc : lookupLast c k = none := hl c (List.mem_cons_self _ _)
        have hstep : mapGet (objAssign acc c) k = none := by
          rw [mapGet_objAssign, hc, hacc]; rfl
        exact ih (objAssign acc c)
          (fun c' hc' => hl c' (List.mem_cons_of_mem _ hc')) hstep
  exact main l [] h rfl

theorem lookupLast_objAssign (b c : RCtx) (k : String) (hb : ctxWF b) :
    lookupLast (objAssign b c) k = oElse (lookupLast c k) (lookupLast b k) := by
  rw [lookupLast_eq_mapGet (objAssign b c) k
      (show ((objAssign b c).map Prod.fst).Nodup from nodupKeys_mapSetAll b c hb),
    mapGet_objAssign, ← lookupLast_eq_mapGet b k hb]

theorem objAssign_assoc_mapGet (a b c : RCtx) (k : String) (hb : ctxWF b) :
    mapGet (objAssign (objAssign a b) c) k
      = mapGet (objAssign a (objAssign b c)) k := by
  rw [mapGet_objAssign, mapGet_objAssign, mapGet_objAssign,
    lookupLast_objAssign b c k hb]
  cases lookupLast c k <;> cases lookupLast b k <;> simp [oElse]

/-! # Lemmas about headers -/

theorem headerGet_headersSet_self (h : List (String × String)) (k v : String) :
    headerGet (headersSet h k v) k = some v :=
  mapGet_mapSet_self h k.toLower v

theorem headersHas_headersSet (h : List (String × String)) (k v j : String)
    (hj : headersHas h j = true) : headersHas (headersSet h k v) j = true := by
  unfold headersHas headerGet headersSet at *
  rw [mapGet_mapSet]
  by_cases he : k.toLower = j.toLower
  · simp [he]
  · simpa [he] using hj

/-! # The claims -/

/-- Claim C1.  The claim asserts that the resolved-component cache is scoped
to a single runtime instance.  In the source, `componentCache` is a
module-level `Map` shared by every runtime instance of the process, keyed
only by component id.  This theorem evaluates the code at the claim's own
failing input: runtime A registers id `"hero"` with a loader producing
component `100`; runtime B independently registers `"hero"` with a loader
producing `200`.  After A resolves, B's `resolveComponent` returns A's
cached handle `100` (and never invokes B's loader), even though B's loader
would produce the distinct handle `200`. -/
theorem componentCache_shared_across_runtimes :
    (resolveComponent envDistinct [] entryHeroA).1 = .ok (.num 100)
    ∧ resolveComponent envDistinct
        (resolveComponent envDistinct [] entryHeroA).2.1 entryHeroB
      = (.ok (.num 100), (resolveComponent envDistinct [] entryHeroA).2.1, 0)
    ∧ envDistinct 1 = .num 200
    ∧ JSVal.num 100 ≠ JSVal.num 200 :=
  ⟨rfl, rfl, rfl, by decide⟩

/-- Claim C2.  The claim asserts an at-most-one-build guarantee under
cooperative interleaving.  Both `resolveComponent` and `getService` are
check-then-set: the cache is consulted before the `await` and written only
after it, so two calls interleaved at the suspension point each invoke the
loader / factory.  With the schedule A,B,A,B starting from an empty cache,
the loader is invoked twice (both callers do receive the same value), and
likewise the service factory is invoked twice — refuting "at most once". -/
theorem interleaved_calls_build_twice :
    (runResolve envSeven entryHeroA [false, true, false, true]
        { cache := [], invocations := 0, taskA := .ready, taskB := .ready }).invocations = 2
    ∧ (runResolve envSeven entryHeroA [false, true, false, true]
        { cache := [], invocations := 0, taskA := .ready, taskB := .ready }).taskA
      = .finished (.ok (.num 7))
    ∧ (runResolve envSeven entryHeroA [false, true, false, true]
        { cache := [], invocations := 0, taskA := .ready, taskB := .ready }).taskB
      = .finished (.ok (.num 7))
    ∧ (runService factFive "svc" [false, true, false, true]
        { st := stSvc, invocations := 0, taskA := .ready, taskB := .ready }).invocations = 2 :=
  ⟨rfl, rfl, rfl, rfl⟩

/-- Claim C3, counterexample.  `registerComponents` is not atomic: with the
batch `[goodEntryA, badEntryEmptyId]` the call fails with `InvalidArgument`,
yet the well-formed first entry has already been added — the registry is
`[("a", goodEntryA)]`, not the unchanged `[]` the claim requires. -/
theorem registerComponents_not_atomic :
    (registerComponents [] [goodEntryA, badEntryEmptyId]).2
      = some (.invalidArgument "Each entry must have a non-empty string id")
    ∧ (registerComponents [] [goodEntryA, badEntryEmptyId]).1 = [("a", goodEntryA)]
    ∧ ([("a", goodEntryA)] : List (String × EntryM)) ≠ [] :=
  ⟨rfl, rfl, by decide⟩

/-- Claim C3, amended.  If a batch consists of well-formed entries followed
by a malformed entry and then anything, `registerComponents` fails with an
`InvalidArgument` error, but every well-formed entry preceding the first
malformed one has already been registered (the registry is not rolled
back); entries from the malformed one onward are not added. -/
theorem registerComponents_registers_entries_before_malformed
    (reg : List (String × EntryM)) (good : List EntryM) (bad : EntryM)
    (rest : List EntryM)
    (hg : ∀ e ∈ good, entryWellFormed e = true)
    (hb : entryWellFormed bad = false) :
    (registerComponents reg (good ++ bad :: rest)).1
      = good.foldl (fun r e => mapSet r (jsStringValue e.id) e) reg
    ∧ ∃ msg, (registerComponents reg (good ++ bad :: rest)).2
        = some (.invalidArgument msg) := by
  induction good generalizing reg with
  | nil =>
    simp only [List.nil_append, List.foldl_nil]
    cases ha : truthy bad.id <;> cases hbs : jsIsString bad.id <;>
      cases hcf : jsIsFunction bad.loader <;>
      simp_all [registerComponents, entryWellFormed]
  | cons e good' ih =>
    have he := hg e (List.mem_cons_self _ _)
    simp only [entryWellFormed, Bool.and_eq_true] at he
    obtain ⟨⟨h1, h2⟩, h3⟩ := he
    have hstep : registerComponents reg ((e :: good') ++ bad :: rest)
        = registerComponents (mapSet reg (jsStringValue e.id) e)
            (good' ++ bad :: rest) := by
      simp [registerComponents, h1, h2, h3]
    rw [hstep, List.foldl_cons]
    exact ih (mapSet reg (jsStringValue e.id) e)
      (fun x hx => hg x (List.mem_cons_of_mem _ hx))

/-- Witness for the amended C3 theorem at a concrete batch. -/
theorem registerComponents_registers_entries_before_malformed_witness :
    (registerComponents [] ([goodEntryA] ++ badEntryEmptyId :: [])).1
      = [goodEntryA].foldl (fun r e => mapSet r (jsStringValue e.id) e) []
    ∧ ∃ msg, (registerComponents [] ([goodEntryA] ++ badEntryEmptyId :: [])).2
        = some (.invalidArgument msg) :=
  registerComponents_registers_entries_before_malformed [] [goodEntryA]
    badEntryEmptyId [] (by decide) (by decide)

/-- Claim C4.  Sequential memoization of `resolveComponent`: for an entry
whose id is not yet cached and whose loader yields a usable component, the
first call invokes the loader exactly once, caching the component; the
second call (and, since it leaves the cache unchanged, every later call
before invalidation) returns the identical cached handle with zero loader
invocations. -/
theorem resolveComponent_memoizes (env : Nat → JSVal) (cache : CCache)
    (e : EntryM) (t : Nat)
    (hl : e.loader = .fn t)
    (hmiss : mapGet cache e.id = none)
    (hres : truthy (env t) = true) :
    resolveComponent env cache e = (.ok (env t), mapSet cache e.id (env t), 1)
    ∧ resolveComponent env (mapSet cache e.id (env t)) e
      = (.ok (env t), mapSet cache e.id (env t), 0) := by
  constructor
  · simp only [resolveComponent, hmiss, Option.getD_none, hl, hres]
    rfl
  · simp only [resolveComponent, mapGet_mapSet_self, Option.getD_some, hres]
    rfl

/-- Witness for C4 at a concrete entry and loader environment. -/
theorem resolveComponent_memoizes_witness :
    resolveComponent envSeven [] entryHeroA
      = (.ok (envSeven 0), mapSet [] entryHeroA.id (envSeven 0), 1) :=
  (resolveComponent_memoizes envSeven [] entryHeroA 0 rfl rfl (by decide)).1

/-- Claim C5.  Service memoization and eviction: after registering a name
with factory `f`, the first `getService` invokes the factory once and
returns its instance, the second returns the same memoized instance with no
factory invocation and no state change; re-registering the name with a new
factory `g` evicts the memoized instance, so the next `getService` invokes
`g` once and returns `g`'s freshly built instance. -/
theorem getService_memoizes_and_evicts (factEnv : Nat → JSVal)
    (st : RuntimeState) (s : String) (f g : Nat) (hs : s ≠ "") :
    ∃ st1 st2 st3 st4,
      registerService st (.str s) (.fn f) = .ok st1
      ∧ getService factEnv st1 s = (.ok (factEnv f), st2, 1)
      ∧ getService factEnv st2 s = (.ok (factEnv f), st2, 0)
      ∧ registerService st2 (.str s) (.fn g) = .ok st3
      ∧ getService factEnv st3 s = (.ok (factEnv g), st4, 1) := by
  have htr : truthy (.str s) = true := by simp [truthy, hs]
  have h1 : registerService st (.str s) (.fn f)
      = .ok { st with
          services := mapSet st.services (.str s) ⟨.str s, .fn f⟩
          serviceInstances := mapDelete st.serviceInstances s } := by
    simp [registerService, htr, jsIsString, jsIsFunction, jsStringValue]
  have h2 : getService factEnv
      { st with
        services := mapSet st.services (.str s) ⟨.str s, .fn f⟩
        serviceInstances := mapDelete st.serviceInstances s } s
      = (.ok (factEnv f),
        { st with
          services := mapSet st.services (.str s) ⟨.str s, .fn f⟩
          serviceInstances := mapSet (mapDelete st.serviceInstances s) s (factEnv f) },
        1) := by
    simp [getService, mapGet_mapDelete_self, mapGet_mapSet_self]
  have h3 : getService factEnv
      { st with
        services := mapSet st.services (.str s) ⟨.str s, .fn f⟩
        serviceInstances := mapSet (mapDelete st.serviceInstances s) s (factEnv f) } s
      = (.ok (factEnv f),
        { st with
          services := mapSet st.services (.str s) ⟨.str s, .fn f⟩
          serviceInstances := mapSet (mapDelete st.serviceInstances s) s (factEnv f) },
        0) := by
    simp [getService, mapGet_mapSet_self]
  have h4 : registerService
      { st with
        services := mapSet st.services (.str s) ⟨.str s, .fn f⟩
        serviceInstances := mapSet (mapDelete st.serviceInstances s) s (factEnv f) }
      (.str s) (.fn g)
      = .ok { st with
          services := mapSet (mapSet st.services (.str s) ⟨.str s, .fn f⟩) (.str s)
            ⟨.str s, .fn g⟩
          serviceInstances :=
            mapDelete (mapSet (mapDelete st.serviceInstances s) s (factEnv f)) s } := by
    simp [registerService, htr, jsIsString, jsIsFunction, jsStringValue]
  have h5 : getService factEnv
      { st with
        services := mapSet (mapSet st.services (.str s) ⟨.str s, .fn f⟩) (.str s)
          ⟨.str s, .fn g⟩
        serviceInstances :=
          mapDelete (mapSet (mapDelete st.serviceInstances s) s (factEnv f)) s } s
      = (.ok (factEnv g),
        { st with
          services := mapSet (mapSet st.services (.str s) ⟨.str s, .fn f⟩) (.str s)
            ⟨.str s, .fn g⟩
          serviceInstances :=
            mapSet (mapDelete (mapSet (mapDelete st.serviceInstances s) s (factEnv f)) s)
              s (factEnv g) },
        1) := by
    simp [getService, mapGet_mapDelete_self, mapGet_mapSet_self]
  exact ⟨_, _, _, _, h1, h2, h3, h4, h5⟩

/-- Witness for C5 at a concrete state, name and pair of factories. -/
theorem getService_memoizes_and_evicts_witness :
    ∃ st1 st2 st3 st4,
      registerService stZeroConfig (.str "x") (.fn 0) = .ok st1
      ∧ getService (fun t => .num t) st1 "x" = (.ok (.num 0), st2, 1)
      ∧ getService (fun t => .num t) st2 "x" = (.ok (.num 0), st2, 0)
      ∧ registerService st2 (.str "x") (.fn 1) = .ok st3
      ∧ getService (fun t => .num t) st3 "x" = (.ok (.num 1), st4, 1) :=
  getService_memoizes_and_evicts (fun t => .num t) stZeroConfig "x" 0 1 (by decide)

/-- Claim C6.  Context merge is a shallow left-to-right override:
(i) appending a fragment `b` to any sequence makes `b`'s keys win while keys
absent from `b` are inherited from the earlier merge; (ii) the binary merge
is associative (observed at every key; the middle object is a JS object,
hence has no duplicate keys); (iii) a key absent from every fragment is
absent from the result; (iv) an absent/`undefined` fragment anywhere in the
sequence is skipped. -/
theorem mergeContexts_shallow_override (l l1 l2 : List (Option RCtx))
    (a b c : RCtx) (k : String) (hb : ctxWF b) :
    mapGet (mergeContexts (l ++ [some b])) k
      = oElse (lookupLast b k) (mapGet (mergeContexts l) k)
    ∧ (∀ k', mapGet (objAssign (objAssign a b) c) k'
        = mapGet (objAssign a (objAssign b c)) k')
    ∧ ((∀ ctx : RCtx, some ctx ∈ l1 → lookupLast ctx k = none) →
        mapGet (mergeContexts l1) k = none)
    ∧ mergeContexts (l1 ++ none :: l2) = mergeContexts (l1 ++ l2) := by
  refine ⟨?_, ?_, ?_, ?_⟩
  · rw [mergeContexts_append_some, mapGet_objAssign]
  · intro k'
    exact objAssign_assoc_mapGet a b c k' hb
  · exact mapGet_mergeContexts_none l1 k
  · exact mergeContexts_skip_none l1 l2

/-- Witness for C6: merging `{channel: web}` then `{channel: email}` yields
`email` for `channel` (later fragment wins), and a `none` fragment in the
middle of a sequence is skipped. -/
theorem mergeContexts_shallow_override_witness :
    mapGet (mergeContexts ([some [("channel", JSVal.str "web")]]
        ++ [some [("channel", JSVal.str "email")]])) "channel"
      = oElse (lookupLast [("channel", JSVal.str "email")] "channel")
          (mapGet (mergeContexts [some [("channel", JSVal.str "web")]]) "channel")
    ∧ mergeContexts ([some [("channel", JSVal.str "web")]] ++ none
        :: [some [("locale", JSVal.str "de")]])
      = mergeContexts ([some [("channel", JSVal.str "web")]]
        ++ [some [("locale", JSVal.str "de")]]) :=
  ⟨(mergeContexts_shallow_override [some [("channel", JSVal.str "web")]]
      [some [("channel", JSVal.str "web")]] [some [("locale", JSVal.str "de")]]
      [] [("channel", JSVal.str "email")] [] "channel" (by decide)).1,
   (mergeContexts_shallow_override [some [("channel", JSVal.str "web")]]
      [some [("channel", JSVal.str "web")]] [some [("locale", JSVal.str "de")]]
      [] [("channel", JSVal.str "email")] [] "channel" (by decide)).2.2.2⟩

/-- Claim C7.  For every runtime state, shared cache and render options
whose component id is absent from the registry, `renderToString` fails with
the `NotFound` error naming that id, leaves the cache untouched, and
performs zero loader invocations and zero engine invocations. -/
theorem renderToString_missing_id (env : Nat → JSVal) (engine : EngineFn)
    (cache : CCache) (st : RuntimeState) (options : RenderByIdOptionsM)
    (h : mapGet st.registry options.componentId = none) :
    renderToString env engine cache st options
      = (.error (.notFoundComponent options.componentId), cache,
        { loaderCalls := 0, engineCalls := 0 }) := by
  simp only [renderToString, h]

/-- Witness for C7 on an empty registry and the id `"missing"`. -/
theorem renderToString_missing_id_witness :
    renderToString envSeven engineBlank [] stZeroConfig { componentId := "missing" }
      = (.error (.notFoundComponent "missing"), [],
        { loaderCalls := 0, engineCalls := 0 }) :=
  renderToString_missing_id envSeven engineBlank [] stZeroConfig
    { componentId := "missing" } rfl

/-- Claim C8.  A runtime constructed without a caller-supplied base context
gets the defaulted base context: reading `channel` yields `"web"` and
reading `locale` yields `undefined` (the key is present but set to
`undefined`, which is indistinguishable from unset by property access); the
merged effective context of a render whose override binds neither key
therefore reads `channel = "web"` and no `locale`. -/
theorem defaultBaseContext_channel_web (ovr : RCtx)
    (h1 : lookupLast ovr "channel" = none)
    (h2 : lookupLast ovr "locale" = none) :
    mkRuntime {} = .ok stZeroConfig
    ∧ getProp stZeroConfig.baseContext "channel" = .str "web"
    ∧ getProp stZeroConfig.baseContext "locale" = .jsUndefined
    ∧ getProp (mergeContexts [some stZeroConfig.baseContext, some ovr]) "channel"
      = .str "web"
    ∧ getProp (mergeContexts [some stZeroConfig.baseContext, some ovr]) "locale"
      = .jsUndefined := by
  have hm : ∀ k : String, mergeContexts [some stZeroConfig.baseContext, some ovr]
      = objAssign (objAssign [] stZeroConfig.baseContext) ovr := fun _ => rfl
  refine ⟨rfl, by decide, by decide, ?_, ?_⟩
  · rw [getProp, hm "channel", mapGet_objAssign, h1, mapGet_objAssign]
    decide
  · rw [getProp, hm "locale", mapGet_objAssign, h2, mapGet_objAssign]
    decide

/-- Witness for C8 with the override `{foo: 1}`. -/
theorem defaultBaseContext_channel_web_witness :
    getProp (mergeContexts [some stZeroConfig.baseContext,
        some [("foo", JSVal.num 1)]]) "channel" = .str "web" :=
  (defaultBaseContext_channel_web [("foo", JSVal.num 1)]
    (by decide) (by decide)).2.2.2.1

/-- Claim C9.  For every engine, runtime state, component, props and
response options, `renderToResponse` produces a response whose status is the
caller's status or 200 by default; when the caller-supplied headers carry no
`Content-Type`, the response's `Content-Type` is the caller's `contentType`
option or `"text/html; charset=utf-8"` by default; a `Content-Type`
explicitly present in the caller-supplied headers is preserved unchanged;
and every caller-supplied header key is present in the response. -/
theorem renderToResponse_defaults (engine : EngineFn) (st : RuntimeState)
    (component : JSVal) (props : Option JSVal)
    (options : Option ResponseOptionsM) :
    (renderToResponse engine st component props options).status
      = (options.bind (fun o => o.status)).getD 200
    ∧ (headersHas (newHeaders (options.bind (fun o => o.headers)))
          "Content-Type" = false →
        headerGet (renderToResponse engine st component props options).headers
            "Content-Type"
          = some ((options.bind (fun o => o.contentType)).getD
              "text/html; charset=utf-8"))
    ∧ (∀ v, headerGet (newHeaders (options.bind (fun o => o.headers)))
          "Content-Type" = some v →
        headerGet (renderToResponse engine st component props options).headers
            "Content-Type" = some v)
    ∧ (∀ k, headersHas (newHeaders (options.bind (fun o => o.headers))) k = true →
        headersHas (renderToResponse engine st component props options).headers k
          = true) := by
  refine ⟨rfl, ?_, ?_, ?_⟩
  · intro hf
    simp only [renderToResponse, hf, Bool.false_eq_true, if_false]
    exact headerGet_headersSet_self _ _ _
  · intro v hv
    have hh : headersHas (newHeaders (options.bind (fun o => o.headers)))
        "Content-Type" = true := by
      rw [headersHas, hv]
      rfl
    simp only [renderToResponse, hh, if_true]
    exact hv
  · intro k hk
    by_cases hct : headersHas (newHeaders (options.bind (fun o => o.headers)))
        "Content-Type"
    · simp only [renderToResponse, hct, if_true]
      exact hk
    · simp only [renderToResponse, Bool.not_eq_true] at hct
      simp only [renderToResponse, hct, Bool.false_eq_true, if_false]
      exact headersHas_headersSet _ _ _ _ hk

/-- Witness for C9 with no options: status 200 and the default content
type. -/
theorem renderToResponse_defaults_witness :
    (renderToResponse engineBlank stZeroConfig (.num 1) none none).status = 200
    ∧ headerGet (renderToResponse engineBlank stZeroConfig
        (.num 1) none none).headers "Content-Type"
      = some "text/html; charset=utf-8" :=
  ⟨(renderToResponse_defaults engineBlank stZeroConfig (.num 1) none none).1,
   (renderToResponse_defaults engineBlank stZeroConfig (.num 1) none none).2.1 rfl⟩

/-- Claim C10.  Service definitions supplied in the construction config
bypass `registerService`'s validation: for EVERY list of definitions —
malformed names and factories included — construction succeeds (never an
`InvalidArgument` error), the service map is the fold of `Map.set` over the
definitions exactly as supplied, and each name maps to the LAST definition
carrying it (later duplicates win), stored as-is. -/
theorem configServices_skip_validation (svcs : List ServiceDefM) :
    mkRuntime { services := some svcs }
      = .ok { baseContext := createDefaultContext
              registry := []
              services := svcs.foldl (fun m s => mapSet m s.name s) []
              serviceInstances := [] }
    ∧ ∀ name : JSVal,
        mapGet (svcs.foldl (fun m s => mapSet m s.name s) []) name
          = lookupLast (svcs.map (fun s => (s.name, s))) name := by
  constructor
  · rfl
  · intro name
    have h1 : svcs.foldl (fun m s => mapSet m s.name s)
          ([] : List (JSVal × ServiceDefM))
        = mapSetAll [] (svcs.map (fun s => (s.name, s))) := by
      simp [mapSetAll, List.foldl_map]
    rw [h1, mapGet_mapSetAll]
    cases lookupLast (svcs.map (fun s => (s.name, s))) name <;> simp [oElse, mapGet]
